import Mathlib

/-!
Verification of the MotionGen frame-generation UI (React/TypeScript) against its
natural-language specification.  The state-bearing orchestration in `App.tsx`
(`handleImageSelect`, `handleGenerate`, `getClosestAspectRatio`, `handleUpscale`,
`handleDownloadVideo`, `handleDownloadZip`), the playback component
(`AnimationPlayer`) and the service layer (`generateMotionFrame`, `upscaleFrame`)
are shallowly embedded as pure Lean functions.  React `useState` cells become
fields of an explicit state record; each handler becomes a function from the
pre-state (plus the outcomes of the external asynchronous calls it fires, which
are parameters of the model) to the settled post-state.  Numbers are `Nat`/`Int`/`ℚ`;
data-URL strings are Lean `String`s.
-/

namespace MotionGen

/-- Mirrors the `GenerationStatus` interface from `types.ts`: in-progress flag,
completed-frame counter, expected total and an optional error message
(`error?: string`, absent is `none`). -/
structure GenerationStatus where
  isGenerating : Bool
  completedFrames : Nat
  totalFrames : Nat
  error : Option String
deriving DecidableEq, Repr

/-- The top-level React state of `App.tsx` together with the externally visible
browser effects the handlers trigger: `alerts` records `window.alert` calls,
`zipArchives` records the entry list of each generated archive and `videosSaved`
counts completed video downloads. -/
structure AppState where
  originalImage : Option String
  generatedFrames : List String
  status : GenerationStatus
  isDownloading : Bool
  isUpscaling : Bool
  alerts : List String
  zipArchives : List (List (String × String))
  videosSaved : Nat
deriving DecidableEq, Repr

/-- `const TOTAL_FRAMES = 10` in `App.tsx`. -/
def TOTAL_FRAMES : Nat := 10

/-- The request indices `i = 1 .. TOTAL_FRAMES` of the generation loop
`for (let i = 1; i <= TOTAL_FRAMES; i++)`. -/
def requestIndices : List Nat := List.range' 1 TOTAL_FRAMES

/-- Comparator used in `results.sort((a, b) => a.index - b.index)`: order the
tagged results by their original request index. -/
def keyLe (a b : Nat × String) : Prop := a.1 ≤ b.1

instance : DecidableRel keyLe := fun a b => inferInstanceAs (Decidable (a.1 ≤ b.1))

/-- The error message recorded by the `catch` branch of `handleGenerate`. -/
def generateErrorMessage : String :=
  "Failed to generate frames. Please try again or use a different image."

/-- Mirrors `handleImageSelect`: store the new seed image, clear the generated
frames and reset the status record (the object literal has no `error` field, so
the error is cleared). -/
def handleImageSelect (s : AppState) (base64 : String) : AppState :=
  { s with
    originalImage := some base64
    generatedFrames := []
    status := ⟨false, 0, TOTAL_FRAMES, none⟩ }

/-- Mirrors `handleGenerate`.  The external generation calls are abstracted by
`outcomes : Nat → Option String` (the settled result of `generateMotionFrame`
for request index `i`; `none` is a rejection).  `order` is the arrangement of
the settled results in the joined array; the code sorts by the original index
precisely so that the completion order does not matter, so the model quantifies
over an arbitrary arrangement.  The guard `if (!originalImage) return;` is the
`none` branch.  On success the seed is prepended to the frames sorted by index;
on any failure the frames stay cleared (they are cleared when the operation
starts) and the error message is recorded.  Each successful call increments
`completedFrames` via a functional update, so the settled counter is the number
of successful requests. -/
def handleGenerate (s : AppState) (outcomes : Nat → Option String)
    (order : List Nat) : AppState :=
  match s.originalImage with
  | none => s
  | some img =>
    if requestIndices.all (fun i => (outcomes i).isSome) then
      let results := order.map (fun i => (i, (outcomes i).getD ""))
      let sortedFrames := (List.insertionSort keyLe results).map Prod.snd
      { s with
        generatedFrames := img :: sortedFrames
        status := ⟨false, requestIndices.countP (fun i => (outcomes i).isSome),
                   TOTAL_FRAMES, none⟩ }
    else
      { s with
        generatedFrames := []
        status := ⟨false, requestIndices.countP (fun i => (outcomes i).isSome),
                   TOTAL_FRAMES, some generateErrorMessage⟩ }

/-- The candidate list of `getClosestAspectRatio`, with the numeric values the
source uses (`1.0`, `0.75`, `1.333`, `0.5625`, `1.778`) read as exact rationals. -/
def supportedRatios : List (String × ℚ) :=
  [("1:1", 1), ("3:4", 3 / 4), ("4:3", 1333 / 1000), ("9:16", 9 / 16),
   ("16:9", 1778 / 1000)]

/-- `Math.abs`, written as the conditional negation so that it evaluates by
kernel reduction on `ℚ`; equal to `|x|` by `mathAbs_eq_abs`. -/
def mathAbs (x : ℚ) : ℚ := if x < 0 then -x else x

/-- Mirrors the body of `supportedRatios.reduce((prev, curr) => ...)`: fold the
remaining candidates, replacing the accumulator only when the current candidate
is strictly closer to the measured ratio. -/
def reduceCloser (ratio : ℚ) : (String × ℚ) → List (String × ℚ) → (String × ℚ)
  | acc, [] => acc
  | acc, curr :: rest =>
      reduceCloser ratio
        (if mathAbs (curr.2 - ratio) < mathAbs (acc.2 - ratio) then curr else acc) rest

/-- Mirrors `getClosestAspectRatio` up to the browser image load: the measured
`width / height` value of the first frame is the parameter `ratio`.  JavaScript
`reduce` with no initial value seeds the fold with the first list element. -/
def getClosestAspectRatio (ratio : ℚ) : String :=
  match supportedRatios with
  | [] => ""
  | h :: t => (reduceCloser ratio h t).1

/-- Stated from the spec sentence for comparison with `getClosestAspectRatio`:
the label of the first candidate attaining the minimum absolute difference from
the measured ratio (minimum absolute difference, ties broken by encounter order
in the candidate list). -/
def specClosestLabel (ratio : ℚ) : String :=
  match supportedRatios.find?
      (fun p => decide (∀ q ∈ supportedRatios, |p.2 - ratio| ≤ |q.2 - ratio|)) with
  | some p => p.1
  | none => ""

/-- The alert text of the `catch` branch of `handleUpscale`. -/
def upscaleErrorMessage : String :=
  "Upscale failed. Please check your API key quotas or try again."

/-- Mirrors `handleUpscale`.  `keySelectFails` abstracts the
`window.aistudio.openSelectKey()` interaction: when that call throws, the
handler returns before touching any state.  `ratio` is the measured
width/height value of the first frame (the browser image load), and
`outcomes aspect i` is the settled result of `upscaleFrame(frames[i], aspect)`.
`order` is the arrangement of the joined results, re-sorted by index as in
generation.  On any failure the frames are left untouched and an alert is
raised; the `finally` block clears both in-progress flags, and the status
updates all preserve the previous `error` field. -/
def handleUpscale (s : AppState) (keySelectFails : Bool) (ratio : ℚ)
    (outcomes : String → Nat → Option String) (order : List Nat) : AppState :=
  if s.generatedFrames = [] then s
  else if keySelectFails then s
  else
    let len := s.generatedFrames.length
    let aspect := getClosestAspectRatio ratio
    let idxs := List.range len
    if idxs.all (fun i => (outcomes aspect i).isSome) then
      let results := order.map (fun i => (i, (outcomes aspect i).getD ""))
      let sorted := (List.insertionSort keyLe results).map Prod.snd
      { s with
        generatedFrames := sorted
        isUpscaling := false
        status := ⟨false, idxs.countP (fun i => (outcomes aspect i).isSome), len,
                   s.status.error⟩ }
    else
      { s with
        isUpscaling := false
        alerts := s.alerts ++ [upscaleErrorMessage]
        status := ⟨false, idxs.countP (fun i => (outcomes aspect i).isSome), len,
                   s.status.error⟩ }

/-- Mirrors the state effect of `handleDownloadVideo`.  The browser canvas,
recorder and image loads are abstracted by the flags: `ctxOk` is
`canvas.getContext('2d')` succeeding, `loadOk` the frame image loads,
`webmOk`/`mp4Ok` the two `MediaRecorder.isTypeSupported` probes (tried in that
order).  Every path ends with `isDownloading` false; failures raise the
corresponding alert, success records a completed video download. -/
def handleDownloadVideo (s : AppState) (ctxOk loadOk webmOk mp4Ok : Bool) :
    AppState :=
  if s.generatedFrames = [] then s
  else if ctxOk = false then
    { s with isDownloading := false, alerts := s.alerts ++ ["Failed to create video."] }
  else if loadOk = false then
    { s with isDownloading := false, alerts := s.alerts ++ ["Failed to create video."] }
  else if webmOk = false ∧ mp4Ok = false then
    { s with isDownloading := false
             alerts := s.alerts ++
               ["Video recording not supported on this browser. Please try downloading frames as ZIP."] }
  else
    { s with isDownloading := false, videosSaved := s.videosSaved + 1 }

/-- JavaScript `\w` (no unicode flag): ASCII letters, digits and underscore. -/
def isWordChar (c : Char) : Bool := c.isAlphanum || c == '_'

/-- Match a literal character list at the front of the input, returning the
remainder on success. -/
def matchLit : List Char → List Char → Option (List Char)
  | [], s => some s
  | _ :: _, [] => none
  | c :: p, d :: s => if d = c then matchLit p s else none

/-- Final step of the header match: on success the archive payload is the
remainder, otherwise the original string is returned unchanged. -/
def stripTail (s : String) : Option (List Char) → String
  | some r2 => String.mk r2
  | none => s

/-- After the literal `data:image/` matched: require one or more word
characters, then the literal `;base64,`.  Since `;` is not a word character,
the greedy `\w+` match of the regex is the only possible one, so taking the
maximal word-character run is faithful. -/
def stripAfterLit (s : String) : List Char → String
  | [] => s
  | c :: rest =>
    if isWordChar c then
      stripTail s (matchLit ";base64,".toList (rest.dropWhile isWordChar))
    else s

/-- Dispatch on whether the literal `data:image/` matched at the front. -/
def stripHead (s : String) : Option (List Char) → String
  | none => s
  | some r1 => stripAfterLit s r1

/-- Mirrors `frame.replace(/^data:image\/\w+;base64,/, "")`: strip a leading
`data:image/<word>;base64,` header if present, otherwise return the string
unchanged. -/
def stripDataUrl (s : String) : String :=
  stripHead s (matchLit "data:image/".toList s.toList)

/-- Mirrors `String(index + 1).padStart(3, '0')`. -/
def padTo3 (s : String) : String :=
  if s.length < 3 then String.mk (List.replicate (3 - s.length) '0') ++ s else s

/-- The archive entry name for the 1-based ordinal `n`:
`frame_${String(n).padStart(3, '0')}.png`. -/
def zipName (n : Nat) : String := "frame_" ++ padTo3 (toString n) ++ ".png"

/-- Mirrors `generatedFrames.forEach((frame, index) => zip.file(...))`: one
entry per frame in sequence order, named by the 1-based padded ordinal and
holding the frame payload with the data-URL header stripped.  `k` is the index
of the first listed frame. -/
def zipEntries : Nat → List String → List (String × String)
  | _, [] => []
  | k, frame :: rest => (zipName (k + 1), stripDataUrl frame) :: zipEntries (k + 1) rest

/-- Mirrors the state effect of `handleDownloadZip`: guard on an empty sequence,
build the archive (`zipOk` abstracts `zip.generateAsync` succeeding), and clear
`isDownloading` in the `finally` block; failure raises an alert. -/
def handleDownloadZip (s : AppState) (zipOk : Bool) : AppState :=
  if s.generatedFrames = [] then s
  else if zipOk then
    { s with isDownloading := false
             zipArchives := s.zipArchives ++ [zipEntries 0 s.generatedFrames] }
  else
    { s with isDownloading := false
             alerts := s.alerts ++ ["Failed to create ZIP archive."] }

/-- The local state of `AnimationPlayer`: current frame index and play flag. -/
structure PlayerState where
  currentIndex : Nat
  isPlaying : Bool
deriving DecidableEq, Repr

/-- Mirrors `handleNext`: pause, then advance with wrap-around
(`(prev + 1) % frames.length`). -/
def handleNext (frames : List String) (p : PlayerState) : PlayerState :=
  { isPlaying := false, currentIndex := (p.currentIndex + 1) % frames.length }

/-- Mirrors `handlePrev`: pause, then step back with wrap-around
(`(prev - 1 + frames.length) % frames.length`, computed in `Int` as JavaScript
numbers can be negative before the correction term). -/
def handlePrev (frames : List String) (p : PlayerState) : PlayerState :=
  { isPlaying := false
    currentIndex :=
      ((((p.currentIndex : Int) - 1 + (frames.length : Int)) %
        (frames.length : Int))).toNat }

/-- Mirrors `handleThumbnailClick`: pause, then jump to the clicked index. -/
def handleThumbnailClick (p : PlayerState) (index : Nat) : PlayerState :=
  { isPlaying := false, currentIndex := index }

/-- The `inlineData` payload of a response part (`data: string`). -/
structure InlineData where
  data : String
deriving DecidableEq, Repr

/-- A response part; `inlineData` is optional as in the SDK response type. -/
structure ResponsePart where
  inlineData : Option InlineData
deriving DecidableEq, Repr

/-- Mirrors the extraction loop shared by `generateMotionFrame` and
`upscaleFrame`: scan the parts for the first one whose `inlineData.data` is
truthy (present and non-empty) and build a `data:image/png;base64,` URL from
it; the empty string means no image was found. -/
def extractInlineImage : List ResponsePart → String
  | [] => ""
  | part :: rest =>
    match part.inlineData with
    | some d => if d.data ≠ "" then "data:image/png;base64," ++ d.data else extractInlineImage rest
    | none => extractInlineImage rest

/-- Whether any part carries truthy image data. -/
def hasImageData (parts : List ResponsePart) : Bool :=
  parts.any (fun part =>
    match part.inlineData with
    | some d => d.data != ""
    | none => false)

/-- Mirrors `generateMotionFrame` after the network call: `parts` is
`response.candidates[0].content.parts` when available (`none` when the
candidates or parts are missing).  The prompt construction and the request
itself are external I/O; the function's returned value depends only on the
response.  An empty extracted URL raises the error the source throws. -/
def generateMotionFrame (base64Image : String) (frameIndex totalFrames : Nat)
    (description direction : String) (parts : Option (List ResponsePart)) :
    Except String String :=
  let url := match parts with
             | some ps => extractInlineImage ps
             | none => ""
  if url = "" then Except.error "No image data returned from Gemini."
  else Except.ok url

/-- Mirrors `upscaleFrame` after the network call, same response handling as
`generateMotionFrame` with its own error message. -/
def upscaleFrame (base64Image : String) (aspect : String)
    (parts : Option (List ResponsePart)) : Except String String :=
  let url := match parts with
             | some ps => extractInlineImage ps
             | none => ""
  if url = "" then Except.error "No upscaled image returned from Gemini."
  else Except.ok url

/-- Fixture: a state holding a previously generated one-frame sequence and a
seed image (used to exercise a failing regeneration). -/
def priorState : AppState :=
  { originalImage := some "seed"
    generatedFrames := ["old"]
    status := ⟨false, 0, TOTAL_FRAMES, none⟩
    isDownloading := false
    isUpscaling := false
    alerts := []
    zipArchives := []
    videosSaved := 0 }

/-- Fixture: request 1 fails, all others succeed. -/
def failingOutcomes : Nat → Option String :=
  fun i => if i = 1 then none else some "g"

/-- Fixture: an empty initial state. -/
def emptyState : AppState :=
  { originalImage := none
    generatedFrames := []
    status := ⟨false, 0, TOTAL_FRAMES, none⟩
    isDownloading := false
    isUpscaling := false
    alerts := []
    zipArchives := []
    videosSaved := 0 }

/-- Fixture: all ten generation requests succeed with distinguishable frames. -/
def okOutcomes : Nat → Option String := fun i => some ("F" ++ toString i)

/-- Fixture: a completion order different from the request order. -/
def shuffledOrder : List Nat := [7, 3, 10, 1, 5, 9, 2, 8, 6, 4]

/-- The tail of `supportedRatios` (the fold of the JavaScript `reduce` is
seeded with the head and runs over this tail). -/
def ratioTail : List (String × ℚ) :=
  [("3:4", 3 / 4), ("4:3", 1333 / 1000), ("9:16", 9 / 16), ("16:9", 1778 / 1000)]

/-- Fixture: a three-frame playback sequence. -/
def demoFrames : List String := ["a", "b", "c"]

/-- Fixture: a three-frame sequence for the archive export, with two prefixed
payloads and one raw payload. -/
def demoZipFrames : List String :=
  ["data:image/png;base64,AAA", "data:image/jpeg;base64,BBB", "rawCCC"]

/-- Fixture: a response carrying image data. -/
def partsWithImage : List ResponsePart := [⟨some ⟨"XYZ"⟩⟩]

/-- Fixture: a response with no usable image data (one part without
`inlineData`, one with an empty payload). -/
def partsNoImage : List ResponsePart := [⟨none⟩, ⟨some ⟨""⟩⟩]

lemma requestIndices_eq : requestIndices = [1, 2, 3, 4, 5, 6, 7, 8, 9, 10] := rfl

lemma map_congr_mem {α β : Type} (l : List α) (f g : α → β)
    (h : ∀ a ∈ l, f a = g a) : l.map f = l.map g := by
  induction l with
  | nil => rfl
  | cons a t ih =>
    simp only [List.map, List.cons.injEq]
    exact ⟨h a (by simp), ih (fun x hx => h x (by simp [hx]))⟩

/-- Sorting the index-tagged results of a batch by `keyLe` and projecting the
payloads recovers the payloads in index order, for any arrangement of the
results. -/
lemma sortedByIndex_of_perm (g : Nat → String) (order target : List Nat)
    (hperm : order.Perm target)
    (hsorted : List.Sorted (fun a b : Nat => a ≤ b) target) :
    (List.insertionSort keyLe (order.map (fun i => (i, g i)))).map Prod.snd
      = target.map g := by
  rw [← List.map_insertionSort (fun a b : Nat => a ≤ b) keyLe
    (fun i => (i, g i)) order (fun a _ b _ => Iff.rfl)]
  have hsort : order.insertionSort (fun a b : Nat => a ≤ b) = target :=
    List.eq_of_perm_of_sorted ((List.perm_insertionSort _ order).trans hperm)
      (List.sorted_insertionSort _ order) hsorted
  rw [hsort, List.map_map]
  rfl

lemma mathAbs_eq_abs (x : ℚ) : mathAbs x = |x| := by
  unfold mathAbs
  by_cases h : x < 0
  · rw [if_pos h, abs_of_neg h]
  · rw [if_neg h, abs_of_nonneg (not_lt.mp h)]

/-- The fold of `reduceCloser` keeps the accumulator unless a strictly closer
candidate appears, so its result is either the seed (then the seed is at least
as close as every folded candidate) or the first folded candidate that is
strictly closer than the seed and than everything before it, and at least as
close as everything after it. -/
lemma reduceCloser_spec (ratio : ℚ) :
    ∀ (t : List (String × ℚ)) (acc : String × ℚ),
      (reduceCloser ratio acc t = acc ∧
        ∀ x ∈ t, |acc.2 - ratio| ≤ |x.2 - ratio|) ∨
      (∃ t₁ m t₂, t = t₁ ++ m :: t₂ ∧ reduceCloser ratio acc t = m ∧
        |m.2 - ratio| < |acc.2 - ratio| ∧
        (∀ x ∈ t₁, |m.2 - ratio| < |x.2 - ratio|) ∧
        (∀ x ∈ t₂, |m.2 - ratio| ≤ |x.2 - ratio|)) := by
  intro t
  induction t with
  | nil =>
    intro acc
    left
    exact ⟨rfl, by simp⟩
  | cons c rest ih =>
    intro acc
    by_cases h : |c.2 - ratio| < |acc.2 - ratio|
    · have hred : reduceCloser ratio acc (c :: rest) = reduceCloser ratio c rest := by
        simp [reduceCloser, mathAbs_eq_abs, h]
      rcases ih c with ⟨heq, hmin⟩ | ⟨t₁, m, t₂, hdec, hres, hlt, hbef, haft⟩
      · right
        exact ⟨[], c, rest, rfl, by rw [hred, heq], h, by simp, hmin⟩
      · right
        refine ⟨c :: t₁, m, t₂, by rw [hdec, List.cons_append], by rw [hred, hres],
          lt_trans hlt h, ?_, haft⟩
        intro x hx
        rcases List.mem_cons.mp hx with hxc | hx2
        · rw [hxc]
          exact hlt
        · exact hbef x hx2
    · have h' : |acc.2 - ratio| ≤ |c.2 - ratio| := not_lt.mp h
      have hred : reduceCloser ratio acc (c :: rest)
          = reduceCloser ratio acc rest := by
        simp [reduceCloser, mathAbs_eq_abs, h]
      rcases ih acc with ⟨heq, hmin⟩ | ⟨t₁, m, t₂, hdec, hres, hlt, hbef, haft⟩
      · left
        refine ⟨by rw [hred, heq], ?_⟩
        intro x hx
        rcases List.mem_cons.mp hx with hxc | hx2
        · rw [hxc]
          exact h'
        · exact hmin x hx2
      · right
        refine ⟨c :: t₁, m, t₂, by rw [hdec, List.cons_append],
          by rw [hred, hres], hlt, ?_, haft⟩
        intro x hx
        rcases List.mem_cons.mp hx with hxc | hx2
        · rw [hxc]
          exact lt_of_lt_of_le hlt h'
        · exact hbef x hx2

/-- `find?` returns the marked element when it satisfies the test and
everything before it fails it. -/
lemma find?_first_true {α : Type} (p : α → Bool) :
    ∀ (l₁ : List α) (x : α) (l₂ : List α),
      p x = true → (∀ y ∈ l₁, p y = false) →
      List.find? p (l₁ ++ x :: l₂) = some x := by
  intro l₁
  induction l₁ with
  | nil =>
    intro x l₂ hx _
    exact List.find?_cons_of_pos _ hx
  | cons a t ih =>
    intro x l₂ hx hall
    have ha : p a = false := hall a (by simp)
    rw [List.cons_append, List.find?_cons_of_neg _ (by simp [ha])]
    exact ih x l₂ hx (fun y hy => hall y (by simp [hy]))

/-- C3: aspect-ratio selection returns exactly the label computed by the
spec-side rule (first candidate of the list 1:1, 3:4, 4:3, 9:16, 16:9
attaining the minimum absolute difference from the measured ratio — minimum
absolute difference with ties broken by encounter order), in particular one of
the five labels, and the chosen candidate attains the minimum absolute
difference. -/
theorem c3_aspect_snap (ratio : ℚ) :
    getClosestAspectRatio ratio = specClosestLabel ratio ∧
    getClosestAspectRatio ratio ∈ ["1:1", "3:4", "4:3", "9:16", "16:9"] ∧
    ∃ p ∈ supportedRatios, p.1 = getClosestAspectRatio ratio ∧
      ∀ q ∈ supportedRatios, |p.2 - ratio| ≤ |q.2 - ratio| := by
  have hget : getClosestAspectRatio ratio
      = (reduceCloser ratio ("1:1", 1) ratioTail).1 := rfl
  obtain ⟨res, hres_eq, hres_mem, hres_min, hfind⟩ :
      ∃ res, reduceCloser ratio ("1:1", 1) ratioTail = res ∧
        res ∈ supportedRatios ∧
        (∀ q ∈ supportedRatios, |res.2 - ratio| ≤ |q.2 - ratio|) ∧
        supportedRatios.find?
          (fun p => decide (∀ q ∈ supportedRatios, |p.2 - ratio| ≤ |q.2 - ratio|))
          = some res := by
    rcases reduceCloser_spec ratio ratioTail ("1:1", 1) with ⟨heq, hmin⟩ |
      ⟨t₁, m, t₂, hdec, hres, hlt, hbef, haft⟩
    · have hminG : ∀ q ∈ supportedRatios,
          |(("1:1", (1 : ℚ))).2 - ratio| ≤ |q.2 - ratio| := by
        intro q hq
        have hq' : q ∈ ("1:1", (1 : ℚ)) :: ratioTail := hq
        rcases List.mem_cons.mp hq' with hq0 | hqt
        · rw [hq0]
        · exact hmin q hqt
      refine ⟨("1:1", 1), heq, by simp [supportedRatios, ratioTail], hminG, ?_⟩
      show List.find? _ (("1:1", (1 : ℚ)) :: ratioTail) = _
      exact List.find?_cons_of_pos _ (decide_eq_true (hminG))
    · have hm_mem : m ∈ supportedRatios := by
        show m ∈ ("1:1", (1 : ℚ)) :: ratioTail
        rw [hdec]
        simp
      have hminG : ∀ q ∈ supportedRatios, |m.2 - ratio| ≤ |q.2 - ratio| := by
        intro q hq
        have hq' : q ∈ ("1:1", (1 : ℚ)) :: ratioTail := hq
        rw [hdec] at hq'
        rcases List.mem_cons.mp hq' with hq0 | hqt
        · rw [hq0]
          exact le_of_lt hlt
        · rcases List.mem_append.mp hqt with hq1 | hq2
          · exact le_of_lt (hbef q hq1)
          · rcases List.mem_cons.mp hq2 with hqm | hqt2
            · rw [hqm]
            · exact haft q hqt2
      have hfalse : ∀ y ∈ ("1:1", (1 : ℚ)) :: t₁,
          (fun p => decide (∀ q ∈ supportedRatios,
            |p.2 - ratio| ≤ |q.2 - ratio|)) y = false := by
        intro y hy
        have hylt : |m.2 - ratio| < |y.2 - ratio| := by
          rcases List.mem_cons.mp hy with hy0 | hy1
          · rw [hy0]
            exact hlt
          · exact hbef y hy1
        exact decide_eq_false (fun hmin_y => absurd (hmin_y m hm_mem)
          (not_le.mpr hylt))
      refine ⟨m, hres, hm_mem, hminG, ?_⟩
      show List.find? _ (("1:1", (1 : ℚ)) :: ratioTail) = _
      rw [show (("1:1", (1 : ℚ)) :: ratioTail)
          = (("1:1", (1 : ℚ)) :: t₁) ++ m :: t₂ from by rw [hdec, List.cons_append]]
      exact find?_first_true _ _ _ _ (decide_eq_true hminG) hfalse
  have hlabel : specClosestLabel ratio = res.1 := by
    unfold specClosestLabel
    rw [hfind]
  refine ⟨?_, ?_, ?_⟩
  · rw [hget, hres_eq, hlabel]
  · rw [hget, hres_eq]
    exact List.mem_map_of_mem Prod.fst hres_mem
  · exact ⟨res, hres_mem, by rw [hget, hres_eq], hres_min⟩

/-- Witness for C3: at the exact midpoint 7/8 between the 1:1 and 3:4 values,
the selection agrees with the spec-side first-minimum rule and the tie is
broken toward the earlier candidate 1:1. -/
theorem c3_witness :
    getClosestAspectRatio (7 / 8) = specClosestLabel (7 / 8) ∧
    getClosestAspectRatio (7 / 8) = "1:1" := by
  refine ⟨(c3_aspect_snap (7 / 8)).1, ?_⟩
  show (reduceCloser (7 / 8) ("1:1", 1) ratioTail).1 = "1:1"
  simp only [ratioTail, reduceCloser, mathAbs]
  norm_num

/-- C1: for every seed image and every batch of N=10 generation requests that
all succeed, the generate operation produces a sequence of length N+1 whose
element 0 is exactly the seed image and whose elements 1..N are the generated
frames ordered by ascending original request index, for every completion order
of the requests. -/
theorem c1_generate_ordered_sequence (s : AppState) (outcomes : Nat → Option String)
    (order : List Nat) (seed : String) (f : Nat → String)
    (h1 : s.originalImage = some seed)
    (h2 : ∀ i ∈ requestIndices, outcomes i = some (f i))
    (h3 : order.Perm requestIndices) :
    (handleGenerate s outcomes order).generatedFrames.length = TOTAL_FRAMES + 1 ∧
    (handleGenerate s outcomes order).generatedFrames.get? 0 = some seed ∧
    ∀ i, 1 ≤ i → i ≤ TOTAL_FRAMES →
      (handleGenerate s outcomes order).generatedFrames.get? i = some (f i) := by
  have hall : requestIndices.all (fun i => (outcomes i).isSome) = true := by
    rw [List.all_eq_true]
    intro i hi
    rw [h2 i hi]
    rfl
  have hgf : (handleGenerate s outcomes order).generatedFrames
      = seed :: requestIndices.map f := by
    simp only [handleGenerate, h1, hall, if_true]
    rw [sortedByIndex_of_perm (fun i => (outcomes i).getD "") order requestIndices h3
      (by decide)]
    rw [map_congr_mem requestIndices (fun i => (outcomes i).getD "") f
      (fun i hi => by simp [h2 i hi])]
  refine ⟨?_, ?_, ?_⟩
  · rw [hgf, requestIndices_eq]
    rfl
  · rw [hgf]
    rfl
  · intro i hi1 hi2
    have hi2' : i ≤ 10 := hi2
    rw [hgf, requestIndices_eq]
    interval_cases i <;> rfl

/-- Witness for C1 at a concrete state, outcome family and shuffled completion
order. -/
theorem c1_witness :
    (handleGenerate priorState okOutcomes shuffledOrder).generatedFrames.length
      = TOTAL_FRAMES + 1 ∧
    (handleGenerate priorState okOutcomes shuffledOrder).generatedFrames.get? 0
      = some "seed" ∧
    (handleGenerate priorState okOutcomes shuffledOrder).generatedFrames.get? 3
      = some ("F" ++ toString 3) := by
  have h := c1_generate_ordered_sequence priorState okOutcomes shuffledOrder "seed"
    (fun i => "F" ++ toString i) rfl (by decide) (by decide)
  exact ⟨h.1, h.2.1, h.2.2 3 (by decide) (by decide)⟩

/-- C2 counterexample: with a non-empty prior sequence and one failing request,
the visible sequence after the operation does not equal the prior sequence (the
handler clears the sequence when the operation starts), so the claimed
conjunction fails even though the error is recorded. -/
theorem c2_counterexample :
    ¬((handleGenerate priorState failingOutcomes requestIndices).generatedFrames
        = priorState.generatedFrames ∧
      (handleGenerate priorState failingOutcomes requestIndices).status.error
        ≠ none) := by
  decide

/-- C2 amended: if any of the N requests fails, an error message is recorded in
the status and no partial results are placed, but the prior sequence is not
preserved: the sequence is cleared at operation start, so the visible sequence
after a failed generation is empty. -/
theorem c2_generate_failure_clears (s : AppState) (outcomes : Nat → Option String)
    (order : List Nat) (img : String)
    (h1 : s.originalImage = some img)
    (h2 : ∃ i ∈ requestIndices, outcomes i = none) :
    (handleGenerate s outcomes order).generatedFrames = [] ∧
    (handleGenerate s outcomes order).status.error = some generateErrorMessage := by
  obtain ⟨i, hi, hnone⟩ := h2
  have hall : requestIndices.all (fun j => (outcomes j).isSome) = false := by
    rw [Bool.eq_false_iff]
    intro hall
    have hsome := List.all_eq_true.mp hall i hi
    rw [hnone] at hsome
    simp at hsome
  constructor <;> simp [handleGenerate, h1, hall]

/-- Witness for the amended C2 at a concrete failing batch. -/
theorem c2_witness :
    (handleGenerate priorState failingOutcomes requestIndices).generatedFrames = [] ∧
    (handleGenerate priorState failingOutcomes requestIndices).status.error
      = some generateErrorMessage :=
  c2_generate_failure_clears priorState failingOutcomes requestIndices "seed" rfl
    ⟨1, by decide, rfl⟩

/-- C7: each manual navigation action (next, previous, thumbnail selection)
unconditionally leaves the player paused, whatever the prior play state. -/
theorem c7_manual_nav_pauses (frames : List String) (p : PlayerState) (idx : Nat) :
    (handleNext frames p).isPlaying = false ∧
    (handlePrev frames p).isPlaying = false ∧
    (handleThumbnailClick p idx).isPlaying = false :=
  ⟨rfl, rfl, rfl⟩

/-- C8: supplying a new seed image stores it, resets the completed-frame count
to 0, clears the generated sequence and clears any recorded error. -/
theorem c8_new_image_resets (s : AppState) (b : String) :
    (handleImageSelect s b).originalImage = some b ∧
    (handleImageSelect s b).generatedFrames = [] ∧
    (handleImageSelect s b).status.completedFrames = 0 ∧
    (handleImageSelect s b).status.error = none ∧
    (handleImageSelect s b).status.isGenerating = false :=
  ⟨rfl, rfl, rfl, rfl, rfl⟩

/-- C10: each top-level operation is a guarded no-op when its required input is
absent: generation without a seed image, and upscale, video export and archive
export on an empty sequence, all leave the whole state unchanged. -/
theorem c10_guarded_noops (s : AppState) (outcomes : Nat → Option String)
    (order : List Nat) (keySelectFails : Bool) (ratio : ℚ)
    (uOutcomes : String → Nat → Option String) (uOrder : List Nat)
    (ctxOk loadOk webmOk mp4Ok zipOk : Bool) :
    (s.originalImage = none → handleGenerate s outcomes order = s) ∧
    (s.generatedFrames = [] → handleUpscale s keySelectFails ratio uOutcomes uOrder = s) ∧
    (s.generatedFrames = [] → handleDownloadVideo s ctxOk loadOk webmOk mp4Ok = s) ∧
    (s.generatedFrames = [] → handleDownloadZip s zipOk = s) := by
  refine ⟨?_, ?_, ?_, ?_⟩
  · intro h
    simp [handleGenerate, h]
  · intro h
    simp [handleUpscale, h]
  · intro h
    simp [handleDownloadVideo, h]
  · intro h
    simp [handleDownloadZip, h]

/-- C6: for a non-empty sequence of length L and a valid playback state, the
index stays in [0, L-1] under next, previous and thumbnail selection; next at
index L-1 wraps to 0 and previous at index 0 wraps to L-1. -/
theorem c6_playback_wraps (frames : List String) (p : PlayerState) (idx : Nat)
    (hne : frames ≠ []) (hinv : p.currentIndex < frames.length)
    (hidx : idx < frames.length) :
    (handleNext frames p).currentIndex < frames.length ∧
    (handlePrev frames p).currentIndex < frames.length ∧
    (handleThumbnailClick p idx).currentIndex < frames.length ∧
    (p.currentIndex = frames.length - 1 → (handleNext frames p).currentIndex = 0) ∧
    (p.currentIndex = 0 → (handlePrev frames p).currentIndex = frames.length - 1) := by
  have hL : 0 < frames.length := List.length_pos.mpr hne
  refine ⟨Nat.mod_lt _ hL, ?_, hidx, ?_, ?_⟩
  · show ((((p.currentIndex : Int) - 1 + (frames.length : Int)) %
        (frames.length : Int))).toNat < frames.length
    have hne0 : (frames.length : Int) ≠ 0 := by
      exact_mod_cast Nat.pos_iff_ne_zero.mp hL
    have h0 : 0 ≤ ((p.currentIndex : Int) - 1 + (frames.length : Int)) %
        (frames.length : Int) := Int.emod_nonneg _ hne0
    have hlt : ((p.currentIndex : Int) - 1 + (frames.length : Int)) %
        (frames.length : Int) < (frames.length : Int) :=
      Int.emod_lt_of_pos _ (by exact_mod_cast hL)
    omega
  · intro h
    show (p.currentIndex + 1) % frames.length = 0
    rw [h, Nat.sub_add_cancel hL, Nat.mod_self]
  · intro h
    show ((((p.currentIndex : Int) - 1 + (frames.length : Int)) %
        (frames.length : Int))).toNat = frames.length - 1
    rw [h]
    have e1 : ((0 : Nat) : Int) - 1 + (frames.length : Int)
        = (frames.length : Int) - 1 := by ring
    rw [e1, Int.emod_eq_of_lt (by omega) (by omega)]
    omega

/-- Witness for C6 at a concrete three-frame sequence: next at the last index
wraps to 0 and previous at index 0 wraps to the last index. -/
theorem c6_witness :
    (handleNext demoFrames ⟨2, true⟩).currentIndex = 0 ∧
    (handlePrev demoFrames ⟨0, true⟩).currentIndex = demoFrames.length - 1 := by
  refine ⟨?_, ?_⟩
  · exact (c6_playback_wraps demoFrames ⟨2, true⟩ 0 (by decide) (by decide)
      (by decide)).2.2.2.1 rfl
  · exact (c6_playback_wraps demoFrames ⟨0, true⟩ 0 (by decide) (by decide)
      (by decide)).2.2.2.2 rfl

/-- C4: when the upscale batch runs (non-empty sequence, key selection did not
abort) and any per-frame request fails, the pre-upscale sequence is preserved
unchanged and the upscale-failure alert is surfaced. -/
theorem c4_upscale_failure_preserves (s : AppState) (keySelectFails : Bool)
    (ratio : ℚ) (outcomes : String → Nat → Option String) (order : List Nat)
    (h1 : s.generatedFrames ≠ [])
    (h2 : keySelectFails = false)
    (h3 : ∃ i ∈ List.range s.generatedFrames.length,
      outcomes (getClosestAspectRatio ratio) i = none) :
    (handleUpscale s keySelectFails ratio outcomes order).generatedFrames
      = s.generatedFrames ∧
    (handleUpscale s keySelectFails ratio outcomes order).alerts
      = s.alerts ++ [upscaleErrorMessage] := by
  obtain ⟨i, hi, hnone⟩ := h3
  have hall : (List.range s.generatedFrames.length).all
      (fun j => (outcomes (getClosestAspectRatio ratio) j).isSome) = false := by
    rw [Bool.eq_false_iff]
    intro hall
    have hsome := List.all_eq_true.mp hall i hi
    rw [hnone] at hsome
    simp at hsome
  constructor <;> simp [handleUpscale, h1, h2, hall]

/-- Witness for C4 at the concrete prior state with every upscale call
failing. -/
theorem c4_witness :
    (handleUpscale priorState false 1 (fun _ _ => none) []).generatedFrames
      = priorState.generatedFrames ∧
    (handleUpscale priorState false 1 (fun _ _ => none) []).alerts
      = priorState.alerts ++ [upscaleErrorMessage] :=
  c4_upscale_failure_preserves priorState false 1 (fun _ _ => none) []
    (by decide) rfl ⟨0, by decide, rfl⟩

/-- Witness for C10 at the concrete empty state. -/
theorem c10_witness :
    handleGenerate emptyState okOutcomes shuffledOrder = emptyState ∧
    handleUpscale emptyState false 1 (fun _ _ => none) [] = emptyState ∧
    handleDownloadVideo emptyState true true true true = emptyState ∧
    handleDownloadZip emptyState true = emptyState := by
  have h := c10_guarded_noops emptyState okOutcomes shuffledOrder false 1
    (fun _ _ => none) [] true true true true true
  exact ⟨h.1 rfl, h.2.1 rfl, h.2.2.1 rfl, h.2.2.2 rfl⟩

lemma toList_append (a b : String) : (a ++ b).toList = a.toList ++ b.toList := by
  cases a
  cases b
  rfl

lemma mk_toList (s : String) : String.mk s.toList = s := by
  cases s
  rfl

lemma toList_eq_nil_iff (s : String) : s.toList = [] ↔ s = "" := by
  cases s with
  | mk d =>
    constructor
    · intro h
      have hd : d = [] := h
      rw [hd]
    · intro h
      rw [h]
      rfl

lemma matchLit_append : ∀ (p s : List Char), matchLit p (p ++ s) = some s := by
  intro p
  induction p with
  | nil => intro s; rfl
  | cons c t ih =>
    intro s
    simp [matchLit, ih]

lemma dropWhile_all_append (p : Char → Bool) :
    ∀ (l₁ l₂ : List Char), (∀ c ∈ l₁, p c = true) →
      List.dropWhile p (l₁ ++ l₂) = List.dropWhile p l₂ := by
  intro l₁
  induction l₁ with
  | nil => intro l₂ _; rfl
  | cons c t ih =>
    intro l₂ hall
    have hc : p c = true := hall c (by simp)
    rw [List.cons_append, List.dropWhile_cons, if_pos hc]
    exact ih l₂ (fun x hx => hall x (by simp [hx]))

/-- The regex-strip removes exactly a well-formed `data:image/<word>;base64,`
header, leaving the remainder of the payload. -/
lemma stripDataUrl_strips (w rest : String) (hw : w.toList ≠ [])
    (hword : ∀ c ∈ w.toList, isWordChar c = true) :
    stripDataUrl ("data:image/" ++ w ++ ";base64," ++ rest) = rest := by
  obtain ⟨c, w', hw'⟩ : ∃ c w', w.toList = c :: w' := by
    cases hwl : w.toList with
    | nil => exact absurd hwl hw
    | cons c w' => exact ⟨c, w', rfl⟩
  have hc : isWordChar c = true := hword c (by rw [hw']; simp)
  have hw'all : ∀ x ∈ w', isWordChar x = true :=
    fun x hx => hword x (by rw [hw']; simp [hx])
  have hlist : ("data:image/" ++ w ++ ";base64," ++ rest).toList
      = "data:image/".toList ++ (c :: (w' ++ (";base64,".toList ++ rest.toList))) := by
    simp only [toList_append, List.append_assoc]
    rw [hw']
    simp
  have hsemi : isWordChar ';' = false := by decide
  have hdrop : List.dropWhile isWordChar (";base64,".toList ++ rest.toList)
      = ";base64,".toList ++ rest.toList := by
    rw [show ";base64,".toList ++ rest.toList
        = ';' :: ("base64,".toList ++ rest.toList) from rfl]
    rw [List.dropWhile_cons, if_neg (by simp [hsemi])]
  rw [stripDataUrl, hlist, matchLit_append, stripHead, stripAfterLit, if_pos hc,
    dropWhile_all_append isWordChar w' (";base64,".toList ++ rest.toList) hw'all,
    hdrop, matchLit_append, stripTail]
  exact mk_toList rest

lemma zipEntries_length : ∀ (k : Nat) (frames : List String),
    (zipEntries k frames).length = frames.length := by
  intro k frames
  induction frames generalizing k with
  | nil => rfl
  | cons f rest ih => simp [zipEntries, ih]

lemma zipEntries_get? : ∀ (frames : List String) (k i : Nat) (f : String),
    frames.get? i = some f →
    (zipEntries k frames).get? i = some (zipName (k + i + 1), stripDataUrl f) := by
  intro frames
  induction frames with
  | nil =>
    intro k i f h
    simp at h
  | cons a rest ih =>
    intro k i f h
    cases i with
    | zero =>
      simp only [List.get?_cons_zero, Option.some.injEq] at h
      rw [← h]
      simp [zipEntries]
    | succ j =>
      simp only [List.get?_cons_succ] at h
      have hrec := ih (k + 1) j f h
      rw [show k + (j + 1) + 1 = k + 1 + j + 1 from by omega]
      simpa [zipEntries] using hrec

/-- C5: archive export over a non-empty sequence of k frames produces exactly k
entries, the entry at position i being named by the 1-based zero-padded ordinal
`frame_NNN.png` and holding the corresponding frame payload with its
`data:image/...;base64,` header stripped, so only the raw base64 image bytes
remain. -/
theorem c5_zip_entries (frames : List String) (h : frames ≠ []) :
    (zipEntries 0 frames).length = frames.length ∧
    (∀ i f, frames.get? i = some f →
      (zipEntries 0 frames).get? i = some (zipName (i + 1), stripDataUrl f)) ∧
    (∀ w rest : String, w ≠ "" → (∀ c ∈ w.toList, isWordChar c = true) →
      stripDataUrl ("data:image/" ++ w ++ ";base64," ++ rest) = rest) := by
  refine ⟨zipEntries_length 0 frames, ?_, ?_⟩
  · intro i f hf
    have hrec := zipEntries_get? frames 0 i f hf
    simpa using hrec
  · intro w rest hw hword
    exact stripDataUrl_strips w rest
      (fun hnil => hw ((toList_eq_nil_iff w).mp hnil)) hword

/-- Witness for C5 at a concrete three-frame sequence: three entries named
frame_001.png onward, payloads stripped of their headers. -/
theorem c5_witness :
    (zipEntries 0 demoZipFrames).length = demoZipFrames.length ∧
    (zipEntries 0 demoZipFrames).get? 0
      = some (zipName 1, stripDataUrl "data:image/png;base64,AAA") ∧
    stripDataUrl ("data:image/" ++ "png" ++ ";base64," ++ "AAA") = "AAA" ∧
    zipName 1 = "frame_001.png" ∧
    stripDataUrl "data:image/png;base64,AAA" = "AAA" := by
  have h := c5_zip_entries demoZipFrames (by decide)
  exact ⟨h.1, h.2.1 0 "data:image/png;base64,AAA" rfl,
    h.2.2 "png" "AAA" (by decide) (by decide), by decide, by decide⟩

lemma extractInlineImage_cases : ∀ (ps : List ResponsePart),
    extractInlineImage ps = "" ∨
    ∃ d, extractInlineImage ps = "data:image/png;base64," ++ d := by
  intro ps
  induction ps with
  | nil =>
    left
    rfl
  | cons part rest ih =>
    cases hpd : part.inlineData with
    | none => simpa [extractInlineImage, hpd] using ih
    | some d =>
      by_cases hd : d.data = ""
      · simp only [extractInlineImage, hpd]
        rw [if_neg (by simp [hd])]
        exact ih
      · right
        exact ⟨d.data, by simp [extractInlineImage, hpd, hd]⟩

lemma extractInlineImage_empty_of_none : ∀ (ps : List ResponsePart),
    hasImageData ps = false → extractInlineImage ps = "" := by
  intro ps
  induction ps with
  | nil =>
    intro _
    rfl
  | cons part rest ih =>
    intro h
    simp only [hasImageData, List.any_cons, Bool.or_eq_false_iff] at h
    cases hpd : part.inlineData with
    | none =>
      simp only [extractInlineImage, hpd]
      exact ih h.2
    | some d =>
      have hd : d.data = "" := by
        have hh := h.1
        rw [hpd] at hh
        simpa using hh
      simp only [extractInlineImage, hpd]
      rw [if_neg (by simp [hd])]
      exact ih h.2

lemma png_url_ne_empty (d : String) : "data:image/png;base64," ++ d ≠ "" := by
  intro h
  have h1 : ("data:image/png;base64," ++ d).toList = [] := by
    rw [h]
    rfl
  rw [toList_append] at h1
  have h2 := congrArg List.length h1
  rw [List.length_append] at h2
  have h3 : ("data:image/png;base64,".toList).length = 22 := rfl
  simp only [List.length_nil] at h2
  omega

/-- C9: every successful generation or upscale call returns a string carrying
the `data:image/png;base64,` prefix, whatever the input image's format was; a
response with no usable image data makes the call return the thrown error
instead of a frame. -/
theorem c9_frame_representation (img : String) (i n : Nat)
    (desc dir aspect : String) (resp : Option (List ResponsePart)) :
    (∀ s, generateMotionFrame img i n desc dir resp = Except.ok s →
      ∃ d, s = "data:image/png;base64," ++ d) ∧
    (∀ ps, resp = some ps → hasImageData ps = false →
      generateMotionFrame img i n desc dir resp
        = Except.error "No image data returned from Gemini.") ∧
    (resp = none → generateMotionFrame img i n desc dir resp
        = Except.error "No image data returned from Gemini.") ∧
    (∀ s, upscaleFrame img aspect resp = Except.ok s →
      ∃ d, s = "data:image/png;base64," ++ d) ∧
    (∀ ps, resp = some ps → hasImageData ps = false →
      upscaleFrame img aspect resp
        = Except.error "No upscaled image returned from Gemini.") ∧
    (resp = none → upscaleFrame img aspect resp
        = Except.error "No upscaled image returned from Gemini.") := by
  cases resp with
  | none =>
    refine ⟨?_, ?_, ?_, ?_, ?_, ?_⟩
    · intro s hs
      simp [generateMotionFrame] at hs
    · intro ps hps
      exact absurd hps (by simp)
    · intro _
      rfl
    · intro s hs
      simp [upscaleFrame] at hs
    · intro ps hps
      exact absurd hps (by simp)
    · intro _
      rfl
  | some ps =>
    have hcases := extractInlineImage_cases ps
    refine ⟨?_, ?_, ?_, ?_, ?_, ?_⟩
    · intro s hs
      rcases hcases with hemp | ⟨d, hd⟩
      · simp [generateMotionFrame, hemp] at hs
      · simp only [generateMotionFrame, hd,
          if_neg (png_url_ne_empty d), Except.ok.injEq] at hs
        exact ⟨d, hs.symm⟩
    · intro ps' hps' hno
      injection hps' with he
      subst he
      have hemp := extractInlineImage_empty_of_none ps hno
      simp [generateMotionFrame, hemp]
    · intro h
      exact absurd h (by simp)
    · intro s hs
      rcases hcases with hemp | ⟨d, hd⟩
      · simp [upscaleFrame, hemp] at hs
      · simp only [upscaleFrame, hd,
          if_neg (png_url_ne_empty d), Except.ok.injEq] at hs
        exact ⟨d, hs.symm⟩
    · intro ps' hps' hno
      injection hps' with he
      subst he
      have hemp := extractInlineImage_empty_of_none ps hno
      simp [upscaleFrame, hemp]
    · intro h
      exact absurd h (by simp)

/-- Witness for C9 at concrete responses: a part with payload XYZ yields an ok
result with the PNG data-URL prefix, and a response without usable data yields
the error. -/
theorem c9_witness :
    (∃ d, "data:image/png;base64,XYZ" = "data:image/png;base64," ++ d) ∧
    generateMotionFrame "seed" 1 10 "desc" "Right" (some partsNoImage)
      = Except.error "No image data returned from Gemini." ∧
    upscaleFrame "seed" "1:1" (some partsNoImage)
      = Except.error "No upscaled image returned from Gemini." := by
  have h1 := c9_frame_representation "seed" 1 10 "desc" "Right" "1:1"
    (some partsWithImage)
  have h2 := c9_frame_representation "seed" 1 10 "desc" "Right" "1:1"
    (some partsNoImage)
  exact ⟨h1.1 "data:image/png;base64,XYZ" rfl,
    h2.2.1 partsNoImage rfl (by decide),
    h2.2.2.2.2.1 partsNoImage rfl (by decide)⟩

end MotionGen
